import Mathlib

/-!
# AK89xx compass input driver: embedding and verified properties

A shallow embedding of `drivers/input/misc/compass/ak89xx_input.c`.

Conventions of the embedding:

* C `int`, `short`, `char`, `long long` values are mathematical integers (`Int`);
  every conversion to a narrower or differently signed type is written out
  (`toChar`, `toS16`, `toS32`, `toU8`, `toU32`), two's complement, as gcc does it.
* Plain `char` is unsigned, as it is for the ARM target this kernel is built
  for: `char asa[3]` keeps the fuse bytes as values in `[0, 255]`.
* The I2C adapter, the input core, the hrtimer core, the workqueue and the clock
  are the environment.  What `i2c_transfer` returns (and the bytes it delivers)
  and what `strict_strtoul` and `get_time_ns` return are arguments of the
  embedded functions; what the driver asks of the environment is recorded in
  the state: the bus requests in `bus` (with the value the enable flag had when
  each request was issued in `bus_enable`), the input events in `sink`, the
  armed timer in `timer`, the queued work item in `work_pending`.
* `udelay`, `msleep`, `pr_err`, `pr_debug` and the two mutexes have no effect on
  the modelled state and are left out.
-/

namespace Ak89xx

/-! ## Constants -/

def AK89XX_CNTL_MODE_SNG_MEASURE : Nat := 0x01
def AK89XX_CNTL_MODE_FUSE_ACCESS : Nat := 0x0F
def AK89XX_CNTL_MODE_POWER_DOWN : Nat := 0x00

def AK89XX_REG_ST1 : Nat := 0x02
def AK89XX_REG_CNTL : Nat := 0x0A
def AK89XX_FUSE_ASAX : Nat := 0x10

def AK89XX_MAX_DELAY : Nat := 200
def AK89XX_MIN_DELAY : Nat := 10
def AK89XX_DEFAULT_DELAY : Int := 100

def ID_AK8972 : Nat := 0
def ID_AK8975 : Nat := 1
def ID_AK8963 : Nat := 2

/-- Error numbers of `linux/errno.h` used by the driver. -/
def EPERM : Int := 1
def EIO : Int := 5
def EINVAL : Int := 22

/-- Relative-axis event codes of `linux/input.h` used by the driver. -/
def REL_X : Nat := 0x00
def REL_Y : Nat := 0x01
def REL_Z : Nat := 0x02
def REL_WHEEL : Nat := 0x08
def REL_MISC : Nat := 0x09

/-! ## Machine integers -/

/-- Conversion to plain `char`, an unsigned 8-bit type on the ARM target. -/
def toChar (x : Int) : Int := x % 256

/-- Conversion to `short`. -/
def toS16 (x : Int) : Int := (x + 32768) % 65536 - 32768

/-- Conversion to `int`. -/
def toS32 (x : Int) : Int := (x + 2147483648) % 4294967296 - 2147483648

/-- Conversion to `unsigned char`. -/
def toU8 (x : Int) : Nat := (x % 256).toNat

/-- Conversion to `unsigned int`. -/
def toU32 (x : Int) : Int := x % 4294967296

/-! ## Driver state and environment -/

/-- The arrays `short value[3]`, `char asa[3]` and the local `short c[3]`. -/
structure Vec3 where
  x : Int
  y : Int
  z : Int
  deriving DecidableEq, Repr

/-- A request handed to `i2c_transfer`: a register write of one byte, or a
read of `len` bytes starting at `reg`. -/
inductive BusOp where
  | write (reg : Nat) (data : Nat)
  | read (reg : Nat) (len : Nat)
  deriving DecidableEq, Repr

/-- A call into the input core: `input_report_rel(idev, code, value)` or
`input_sync(idev)`. -/
inductive SinkOp where
  | report_rel (code : Nat) (value : Int)
  | sync
  deriving DecidableEq, Repr

/-- The fields of `struct inv_compass_state` the driver logic reads or writes,
followed by the record of what was asked of the environment. `timer` is
`some ns` while the hrtimer is armed with relative expiry `ns`. `bus_enable`
holds, for each entry of `bus`, the value of `enable` at the moment the request
was handed to `i2c_transfer`. -/
structure State where
  enable : Int
  delay : Int
  compass_id : Nat
  compass_scale : Int
  sl_handle : Bool
  value : Vec3
  asa : Vec3
  timer : Option Int
  work_pending : Bool
  bus : List BusOp
  bus_enable : List Int
  sink : List SinkOp
  deriving DecidableEq, Repr

/-- What `i2c_transfer` does for a read request: its return value and the bytes
it stores in the caller's buffer. -/
structure I2cRead where
  res : Int
  data : List Nat
  deriving DecidableEq, Repr

/-- Element `i` of an `unsigned char` buffer. -/
def byteAt (data : List Nat) (i : Nat) : Nat := data.getD i 0 % 256

/-- `hrtimer_start(&st->timer, ktime, HRTIMER_MODE_REL)`. -/
def hrtimer_start (st : State) (ns : Int) : State := { st with timer := some ns }

/-- `schedule_work(&st->work)`. -/
def schedule_work (st : State) : State := { st with work_pending := true }

/-- `cancel_work_sync(&st->work)`. -/
def cancel_work_sync (st : State) : State := { st with work_pending := false }

/-- `input_report_rel(st->idev, code, value)`; `value` is an `int`. -/
def input_report_rel (st : State) (code : Nat) (value : Int) : State :=
  { st with sink := st.sink ++ [SinkOp.report_rel code value] }

/-- `input_sync(st->idev)`. -/
def input_sync (st : State) : State := { st with sink := st.sink ++ [SinkOp.sync] }

/-! ## Bus helpers -/

/-- `inv_serial_read`: `xfer.res` is what `i2c_transfer` returns. The buffer
returned is meaningful only when the result is 0; the callers read it only
then. (`data` is never NULL at the two call sites.) -/
def inv_serial_read (st : State) (reg : Nat) (length : Nat) (xfer : I2cRead) :
    Int × List Nat × State :=
  if st.sl_handle = false then (-EINVAL, [], st)
  else
    let st := { st with bus := st.bus ++ [BusOp.read reg length]
                        bus_enable := st.bus_enable ++ [st.enable] }
    if xfer.res < 2 then
      ((if xfer.res ≥ 0 then - EIO else xfer.res), [], st)
    else (0, xfer.data, st)

/-- `inv_serial_single_write`: `res` is what `i2c_transfer` returns. -/
def inv_serial_single_write (st : State) (reg : Nat) (data : Nat) (res : Int) :
    Int × State :=
  if st.sl_handle = false then (-EINVAL, st)
  else
    let st := { st with bus := st.bus ++ [BusOp.write reg data]
                        bus_enable := st.bus_enable ++ [st.enable] }
    if res < 1 then
      ((if res = 0 then - EIO else res), st)
    else (0, st)

/-- The `i2c_transfer` outcomes consumed by one run of `ak89xx_init`, in
program order; a later one is consumed only if the earlier steps succeeded. -/
structure InitXfer where
  w1 : Int
  w2 : Int
  rd : I2cRead
  w3 : Int
  deriving DecidableEq, Repr

/-- `ak89xx_init`: power down, fuse access mode, read the three sensitivity
adjustment bytes, power down. -/
def ak89xx_init (st : State) (x : InitXfer) : Int × State :=
  let (result, st) :=
    inv_serial_single_write st AK89XX_REG_CNTL AK89XX_CNTL_MODE_POWER_DOWN x.w1
  if result ≠ 0 then (result, st)
  else
    let (result, st) :=
      inv_serial_single_write st AK89XX_REG_CNTL AK89XX_CNTL_MODE_FUSE_ACCESS x.w2
    if result ≠ 0 then (result, st)
    else
      let (result, serial_data, st) := inv_serial_read st AK89XX_FUSE_ASAX 3 x.rd
      if result ≠ 0 then (result, st)
      else
        let st := { st with asa := ⟨toChar (byteAt serial_data 0),
                                    toChar (byteAt serial_data 1),
                                    toChar (byteAt serial_data 2)⟩ }
        let (result, st) :=
          inv_serial_single_write st AK89XX_REG_CNTL AK89XX_CNTL_MODE_POWER_DOWN x.w3
        (result, st)

/-- The local `scale` of `ak89xx_read` and `ak89xx_set_enable`:
`unsigned char scale = 0; if (st->compass_id == ID_AK8963) scale = compass_scale`. -/
def scale_of (st : State) : Nat :=
  if st.compass_id = ID_AK8963 then toU8 st.compass_scale else 0

/-- The byte `(scale << 4) | mode` passed as the `unsigned char data` argument. -/
def cntl_byte (scale : Nat) (mode : Nat) : Nat := ((scale <<< 4) ||| mode) % 256

/-- The decode `rawfixed[i] = (short)((regs[2*i+2] << 8) | regs[2*i+1])` of
`ak89xx_read`, for `i = 0, 1, 2`. -/
def raw_axis (regs : List Nat) (i : Nat) : Int :=
  toS16 (((byteAt regs (2 * i + 2) <<< 8) ||| byteAt regs (2 * i + 1) : Nat) : Int)

/-- `ak89xx_read`: burst read of ST1, HXL..HZH, ST2, decode, trigger of the
next single measurement. Returns the return value and `rawfixed`. -/
def ak89xx_read (st : State) (rawfixed : Vec3) (rd : I2cRead) (wr : Int) :
    Int × Vec3 × State :=
  let (result, regs, st) := inv_serial_read st AK89XX_REG_ST1 8 rd
  if result ≠ 0 then (result, rawfixed, st)
  else
    let stat := byteAt regs 0
    let stat2 := byteAt regs 7
    let status : Int := 0
    let rawfixed : Vec3 := ⟨raw_axis regs 0, raw_axis regs 1, raw_axis regs 2⟩
    let status := if stat &&& 0x01 ≠ 0 then 0 else status
    let status := if stat2 &&& 0x04 ≠ 0 then 0x04 else status
    let status := if stat2 &&& 0x08 ≠ 0 then 0x08 else status
    let status := if stat &&& 0x02 ≠ 0 then 0 else status
    let scale := scale_of st
    let (result, st) :=
      inv_serial_single_write st AK89XX_REG_CNTL
        (cntl_byte scale AK89XX_CNTL_MODE_SNG_MEASURE) wr
    if result ≠ 0 then (result, rawfixed, st)
    else (status, rawfixed, st)

/-! ## Timer callback and worker -/

/-- `ak89xx_timer_func`, the hrtimer callback (built with
`HRTIMER_RESTART_INSIDE_TIMERISR == 0`, so it never restarts the timer). -/
def ak89xx_timer_func (st : State) : State :=
  if st.enable ≠ 0 then schedule_work st else st

/-- The expression `(c * (asa + 128)) >> 8` assigned back to the `short` slot:
operands promoted to `int`, arithmetic right shift, narrowing to `short`. -/
def asa_adjust (c : Int) (asa : Int) : Int :=
  toS16 (toS32 (c * toS32 (asa + 128)) >>> (8 : Nat))

/-- What the environment supplies to one run of `ak89xx_work_func`: the clock
reading of `get_time_ns`, the burst read and the outcome of the trigger write. -/
structure WorkEnv where
  now : Int
  rd : I2cRead
  wr : Int
  deriving DecidableEq, Repr

/-- `ak89xx_work_func`, the work item. -/
def ak89xx_work_func (st : State) (env : WorkEnv) : State :=
  if st.enable = 0 then st
  else
    let st := hrtimer_start st (toS32 (st.delay * 1000000))
    let timestamp := env.now
    let c : Vec3 := ⟨0, 0, 0⟩
    let (ret, c, st) := ak89xx_read st c env.rd env.wr
    let c : Vec3 :=
      if ret = 0 then
        ⟨asa_adjust c.x st.asa.x, asa_adjust c.y st.asa.y, asa_adjust c.z st.asa.z⟩
      else st.value
    let st := input_report_rel st REL_X c.x
    let st := input_report_rel st REL_Y c.y
    let st := input_report_rel st REL_Z c.z
    let st := input_report_rel st REL_MISC (toS32 (toU32 (timestamp >>> (32 : Nat))))
    let st := input_report_rel st REL_WHEEL (toS32 (toU32 (timestamp % 4294967296)))
    let st := input_sync st
    { st with value := c }

/-! ## Control surface -/

/-- Number of characters `sprintf(buf, "%d\n", v)` writes. -/
def sprintf_d_len (v : Int) : Int := ((toString v ++ "\n").length : Nat)

/-- `ak89xx_reset_show`. -/
def ak89xx_reset_show (st : State) (x : InitXfer) : Int × State :=
  let enable := st.enable
  if enable ≠ 0 then (-EPERM, st)
  else
    let (result, st) := ak89xx_init st x
    (sprintf_d_len result, st)

/-- Text that `sprintf(buf, "%d\n", v)` writes. -/
def sprintf_d (v : Int) : String := toString v ++ "\n"

/-- `ak89xx_rate_show`: the text written to `buf` and the return value. The
quotient `1000 / delay` is taken in `unsigned int` and printed with `%d`. The
result is `none` where the C code divides by zero, which has no defined
behaviour. -/
def ak89xx_rate_show (st : State) : Option (String × Int) :=
  let delay := toU32 st.delay
  if delay = 0 then none
  else
    let hz := toS32 (1000 / delay)
    some (sprintf_d hz, sprintf_d_len hz)

/-- `ak89xx_scale_store`: `result` and `data` are what `strict_strtoul`
returns and parses; `count` is the length of the write. -/
def ak89xx_scale_store (st : State) (result : Int) (data : Nat) (count : Nat) :
    Int × State :=
  if result ≠ 0 then (result, st)
  else
    let st :=
      if st.compass_id = ID_AK8963 then
        { st with compass_scale := if data ≠ 0 then 1 else 0 }
      else st
    ((count : Int), st)

/-- `ak89xx_rate_store`: `error` and `data` are what `strict_strtoul` returns
and parses; `count` is the length of the write. The result is `none` where the
C code divides by zero, which has no defined behaviour. -/
def ak89xx_rate_store (st : State) (error : Int) (data : Nat) (count : Nat) :
    Option (Int × State) :=
  if error ≠ 0 then some (error, st)
  else if data = 0 then none
  else
    let data := 1000 / data
    let data := if data > AK89XX_MAX_DELAY then AK89XX_MAX_DELAY else data
    let data := if data < AK89XX_MIN_DELAY then AK89XX_MIN_DELAY else data
    some ((count : Int), { st with delay := toS32 (toU32 (data : Int)) })

/-- `ak89xx_set_enable`: `res` is what `i2c_transfer` returns for the one
control-register write the function may issue. -/
def ak89xx_set_enable (st : State) (enable : Int) (res : Int) : State :=
  let pre_enable := st.enable
  let scale := scale_of st
  if enable ≠ 0 then
    if pre_enable = 0 then
      let (_, st) :=
        inv_serial_single_write st AK89XX_REG_CNTL
          (cntl_byte scale AK89XX_CNTL_MODE_SNG_MEASURE) res
      let st := { st with enable := 1 }
      hrtimer_start st (toS32 (st.delay * 1000000))
    else st
  else
    if pre_enable = 1 then
      let st := { st with enable := 0 }
      let st := cancel_work_sync st
      let st := { st with delay := AK89XX_DEFAULT_DELAY }
      let (_, st) :=
        inv_serial_single_write st AK89XX_REG_CNTL
          (cntl_byte scale AK89XX_CNTL_MODE_POWER_DOWN) res
      st
    else st

/-! ## Bring-up and the step relation -/

/-- The state `ak89xx_mod_probe` builds before it calls `ak89xx_init`:
`kzalloc` zeroes the structure, then `delay`, `enable`, `sl_handle`,
`compass_id` and `compass_scale` are set; the timer and the work item are
initialised idle. -/
def probe_state (compass_id : Nat) : State :=
  { enable := 0
    delay := AK89XX_DEFAULT_DELAY
    compass_id := compass_id
    compass_scale := 0
    sl_handle := true
    value := ⟨0, 0, 0⟩
    asa := ⟨0, 0, 0⟩
    timer := none
    work_pending := false
    bus := []
    bus_enable := []
    sink := [] }

/-- `ak89xx_mod_probe`, from the point where the allocation, the input device
and the sysfs files are set up: the driver is bound iff `ak89xx_init` does not
return a negative value. -/
def ak89xx_mod_probe (compass_id : Nat) (x : InitXfer) : Except Int State :=
  let (result, st) := ak89xx_init (probe_state compass_id) x
  if result < 0 then Except.error result else Except.ok st

/-- The entry points through which the bound driver is driven: the two
callbacks and the sysfs handlers that touch the state. -/
inductive Action where
  | set_enable (enable : Int) (res : Int)
  | timer_fire
  | work_run (env : WorkEnv)
  | rate_store (error : Int) (data : Nat) (count : Nat)
  | scale_store (result : Int) (data : Nat) (count : Nat)
  | reset_show (x : InitXfer)
  deriving DecidableEq, Repr

/-- An enable request: `ak89xx_set_enable` called with a non-zero argument. -/
def Action.is_enable : Action → Bool
  | Action.set_enable enable _ => decide (enable ≠ 0)
  | _ => false

/-- One step. The hrtimer core takes an expired timer off its queue before it
calls the callback, and the workqueue clears the pending mark of a work item
before it runs it; a timer that is not armed does not fire and a work item that
is not queued does not run. `none` is a step without defined behaviour. -/
def step (st : State) : Action → Option State
  | Action.set_enable enable res => some (ak89xx_set_enable st enable res)
  | Action.timer_fire =>
    match st.timer with
    | some _ => some (ak89xx_timer_func { st with timer := none })
    | none => some st
  | Action.work_run env =>
    if st.work_pending then
      some (ak89xx_work_func { st with work_pending := false } env)
    else some st
  | Action.rate_store error data count =>
    (ak89xx_rate_store st error data count).map Prod.snd
  | Action.scale_store result data count =>
    some (ak89xx_scale_store st result data count).2
  | Action.reset_show x => some (ak89xx_reset_show st x).2

/-- A run of steps from a state. -/
def run (st : State) : List Action → Option State
  | [] => some st
  | a :: rest => (step st a).bind (fun st1 => run st1 rest)

/-! ## Definitions used to state the properties -/

/-- The period the specification's testable property asks for:
`clamp(round(1000 / rate_hz), 10, 200)`, the exact quotient rounded to the
nearest integer. -/
def spec_period_rounded (rate_hz : Nat) : Int :=
  max 10 (min 200 (round ((1000 : ℚ) / (rate_hz : ℚ))))

/-- The clamp `clamp(v, 10, 200)` of the specification. -/
def spec_clamp (v : Int) : Int := max 10 (min 200 v)

/-- The six calls into the input core that make up one output event. -/
def output_event (c : Vec3) (hi lo : Int) : List SinkOp :=
  [SinkOp.report_rel REL_X c.x, SinkOp.report_rel REL_Y c.y, SinkOp.report_rel REL_Z c.z,
   SinkOp.report_rel REL_MISC hi, SinkOp.report_rel REL_WHEEL lo, SinkOp.sync]

/-- The status `ak89xx_read` computes from ST1 and ST2, as a function of the two
bytes (the four `if` statements in program order). -/
def read_status (stat stat2 : Nat) : Int :=
  let status : Int := 0
  let status := if stat &&& 0x01 ≠ 0 then 0 else status
  let status := if stat2 &&& 0x04 ≠ 0 then 0x04 else status
  let status := if stat2 &&& 0x08 ≠ 0 then 0x08 else status
  let status := if stat &&& 0x02 ≠ 0 then 0 else status
  status

/-- The two bytes of a 16-bit word in little-endian order (low byte first), for
the two's-complement encoding of `v`. -/
def le16_bytes (v : Int) : List Nat :=
  [((v % 65536) % 256).toNat, ((v % 65536) / 256).toNat]

/-- The two's-complement signed reading of an unsigned 16-bit value. -/
def s16_of_u16 (u : Nat) : Int := if u < 32768 then (u : Int) else (u : Int) - 65536

/-- The invariant of the enable state machine: the flag is 0 or 1, and no work
item is queued while it is 0. -/
def Inv (st : State) : Prop :=
  (st.enable = 0 ∨ st.enable = 1) ∧ (st.enable = 0 → st.work_pending = false)

/-! ## Concrete states and inputs -/

/-- An enabled state of an AK8975 with a stored sample `(1, 2, 3)` and
calibration bytes `(0, 0, 0)`, used in the concrete evaluations below. -/
def ex_enabled : State :=
  { probe_state ID_AK8975 with enable := 1, value := ⟨1, 2, 3⟩ }

/-- A burst carrying the raw axes `(100, -200, 300)` between the status bytes
`st1` and `st2`. -/
def ex_burst (st1 st2 : Nat) : List Nat :=
  [st1, 100, 0, 0x38, 0xFF, 0x2C, 0x01, st2]

/-- A successful bring-up exchange: the three writes go through and the fuse
ROM read delivers `(0, 0, 0)`. -/
def ex_init : InitXfer := ⟨1, 1, ⟨2, [0, 0, 0]⟩, 1⟩

/-- The state of an AK8963 right after that bring-up. -/
def ex_probed : State :=
  { probe_state ID_AK8963 with
    bus := [BusOp.write 0x0A 0x00, BusOp.write 0x0A 0x0F, BusOp.read 0x10 3,
            BusOp.write 0x0A 0x00]
    bus_enable := [0, 0, 0, 0] }

/-- The steps of a short session before the disable: enable, one timer firing,
one worker run that reads the raw axes `(100, -200, 300)`. -/
def ex_pre : List Action :=
  [Action.set_enable 1 1, Action.timer_fire,
   Action.work_run ⟨5000000000, ⟨2, ex_burst 0x01 0x00⟩, 1⟩]

/-- The steps after the disable: the timer armed by the last worker run fires,
a worker run is attempted, the rate is written. -/
def ex_post : List Action :=
  [Action.timer_fire, Action.work_run ⟨6000000000, ⟨2, ex_burst 0x01 0x00⟩, 1⟩,
   Action.rate_store 0 50 2]

/-- The state that session ends in. -/
def ex_final : State :=
  { ex_probed with
    delay := 20
    value := ⟨50, -100, 150⟩
    bus := ex_probed.bus ++ [BusOp.write 0x0A 0x01, BusOp.read 0x02 8,
             BusOp.write 0x0A 0x01, BusOp.write 0x0A 0x00]
    bus_enable := ex_probed.bus_enable ++ [0, 1, 1, 0]
    sink := output_event ⟨50, -100, 150⟩ 1 705032704 }

/-! ## Lemmas -/

theorem toS16_of_range (x : Int) (h1 : -32768 ≤ x) (h2 : x ≤ 32767) : toS16 x = x := by
  unfold toS16; omega

theorem toS32_of_range (x : Int) (h1 : -2147483648 ≤ x) (h2 : x ≤ 2147483647) :
    toS32 x = x := by
  unfold toS32; omega

theorem toChar_range (x : Int) : 0 ≤ toChar x ∧ toChar x ≤ 255 := by
  unfold toChar; omega

/-- The product of a `short` and a calibration factor in `[0, 255]` stays far
inside the range of `int`. -/
theorem mul_factor_bounds (r k : Int) (hr1 : -32768 ≤ r) (hr2 : r ≤ 32767)
    (hk1 : 0 ≤ k) (hk2 : k ≤ 255) :
    -8355840 ≤ r * k ∧ r * k ≤ 8355585 := by
  constructor
  · nlinarith [mul_nonneg (by linarith : (0 : Int) ≤ r + 32768) hk1,
      mul_nonneg (by linarith : (0 : Int) ≤ r + 32768) (by linarith : (0 : Int) ≤ 255 - k)]
  · nlinarith [mul_nonneg (by linarith : (0 : Int) ≤ 32767 - r) hk1,
      mul_nonneg (by linarith : (0 : Int) ≤ 32767 - r) (by linarith : (0 : Int) ≤ 255 - k)]

/-- On operands in range, `asa_adjust` is the exact floor division: neither
the `int` product nor the narrowing to `short` wraps. -/
theorem asa_adjust_exact (r a : Int) (hr1 : -32768 ≤ r) (hr2 : r ≤ 32767)
    (ha1 : -128 ≤ a) (ha2 : a ≤ 127) :
    asa_adjust r a = (r * (a + 128)) / 256 := by
  have hb := mul_factor_bounds r (a + 128) hr1 hr2 (by omega) (by omega)
  unfold asa_adjust
  rw [toS32_of_range (a + 128) (by omega) (by omega)]
  rw [toS32_of_range (r * (a + 128)) (by omega) (by omega)]
  rw [Int.shiftRight_eq_div_pow]
  generalize r * (a + 128) = p at hb ⊢
  have h256 : ((2 ^ 8 : Nat) : Int) = 256 := by norm_num
  rw [h256]
  apply toS16_of_range <;> omega

/-- On operands in range, `asa_adjust` is the plain shift of the plain product. -/
theorem asa_adjust_shift (r a : Int) (hr : -32768 ≤ r ∧ r ≤ 32767)
    (ha : -128 ≤ a ∧ a ≤ 127) :
    asa_adjust r a = (r * (a + 128)) >>> (8 : Nat) := by
  rw [asa_adjust_exact r a hr.1 hr.2 ha.1 ha.2, Int.shiftRight_eq_div_pow]
  norm_num

/-- A parsed rate of at least 1 Hz is stored as the truncated quotient
`1000 / data`, clamped to `[10, 200]`; nothing else changes. -/
theorem rate_store_eq (st : State) (data count : Nat) (h : 1 ≤ data) :
    ak89xx_rate_store st 0 data count =
      some ((count : Int),
        { st with delay := ((max 10 (min 200 (1000 / data)) : Nat) : Int) }) := by
  have hd : data ≠ 0 := by omega
  have hcast : ∀ n : Nat, n ≤ 200 → toS32 (toU32 (n : Int)) = (n : Int) := by
    intro n hn
    unfold toS32 toU32
    omega
  have hq : (if (if 1000 / data > 200 then 200 else 1000 / data) < 10 then 10
      else (if 1000 / data > 200 then 200 else 1000 / data))
      = max 10 (min 200 (1000 / data)) := by
    generalize 1000 / data = q
    split_ifs <;> omega
  unfold ak89xx_rate_store
  simp only [ne_eq, not_true_eq_false, if_false, hd, AK89XX_MAX_DELAY, AK89XX_MIN_DELAY]
  rw [hq, hcast _ (by omega)]

/-- The code's mask test `b & 2^i` is non-zero exactly when bit `i` is set. -/
theorem and_two_pow_ne_zero (b i : Nat) : (b &&& 2 ^ i ≠ 0) ↔ b.testBit i = true := by
  rw [Nat.and_comm, Nat.two_pow_and]
  cases b.testBit i <;> simp

/-- The two 32-bit halves the worker reports for a clock reading recombine to
that reading. -/
theorem timestamp_halves (now : Int) (h0 : 0 ≤ now) (h1 : now < 2 ^ 63) :
    toU32 (toS32 (toU32 (now >>> (32 : Nat)))) * 2 ^ 32
      + toU32 (toS32 (toU32 (now % 4294967296))) = now := by
  rw [Int.shiftRight_eq_div_pow]
  have h32 : ((2 ^ 32 : Nat) : Int) = 4294967296 := by norm_num
  rw [h32]
  norm_num at h1 ⊢
  unfold toU32 toS32
  omega

/-- A failed `inv_serial_read` returns a non-zero error and has asked the bus
for at most the one read. -/
theorem inv_serial_read_fail (st : State) (reg len : Nat) (rd : I2cRead)
    (hfail : st.sl_handle = false ∨ rd.res < 2) :
    ∃ e, e ≠ 0 ∧ inv_serial_read st reg len rd =
      (e, [], if st.sl_handle = false then st
              else { st with bus := st.bus ++ [BusOp.read reg len]
                             bus_enable := st.bus_enable ++ [st.enable] }) := by
  unfold inv_serial_read
  by_cases hh : st.sl_handle = false
  · exact ⟨-EINVAL, by decide, by simp [hh]⟩
  · have hres : rd.res < 2 := by
      rcases hfail with h | h
      · exact absurd h hh
      · exact h
    refine ⟨if rd.res ≥ 0 then - EIO else rd.res, ?_, by simp [hh, hres]⟩
    split_ifs with h0
    · decide
    · omega

/-- What `ak89xx_read` returns when the burst read fails: the error, with
`rawfixed` untouched and no trigger write. -/
theorem ak89xx_read_fail (st : State) (c : Vec3) (rd : I2cRead) (wr : Int)
    (hfail : st.sl_handle = false ∨ rd.res < 2) :
    ∃ e, e ≠ 0 ∧ ak89xx_read st c rd wr =
      (e, c, if st.sl_handle = false then st
             else { st with bus := st.bus ++ [BusOp.read AK89XX_REG_ST1 8]
                            bus_enable := st.bus_enable ++ [st.enable] }) := by
  obtain ⟨e, he, hrd⟩ := inv_serial_read_fail st AK89XX_REG_ST1 8 rd hfail
  refine ⟨e, he, ?_⟩
  unfold ak89xx_read
  rw [hrd]
  simp only [ne_eq, he, not_false_eq_true, if_true]

/-- What `ak89xx_read` returns when the burst read succeeds: the decoded axes,
and the status unless the trigger write fails. -/
theorem ak89xx_read_ok (st : State) (c : Vec3) (rd : I2cRead) (wr : Int)
    (hh : st.sl_handle = true) (hrd : 2 ≤ rd.res) :
    ak89xx_read st c rd wr =
      ((if wr < 1 then (if wr = 0 then - EIO else wr)
        else read_status (byteAt rd.data 0) (byteAt rd.data 7)),
       ⟨raw_axis rd.data 0, raw_axis rd.data 1, raw_axis rd.data 2⟩,
       { st with bus := st.bus ++ [BusOp.read AK89XX_REG_ST1 8,
           BusOp.write AK89XX_REG_CNTL (cntl_byte (scale_of st) AK89XX_CNTL_MODE_SNG_MEASURE)]
                 bus_enable := st.bus_enable ++ [st.enable, st.enable] }) := by
  have hres : ¬ rd.res < 2 := by omega
  unfold ak89xx_read inv_serial_read inv_serial_single_write read_status scale_of
  simp only [hh, hres, if_false, Bool.true_eq_false, ne_eq, not_true_eq_false]
  by_cases hw : wr < 1
  · by_cases hw0 : wr = 0
    · simp [hw0, EIO]
    · have : wr ≠ 0 := hw0
      simp [hw, hw0]
  · simp [hw]

/-- The whole effect of a worker run whose burst read fails. -/
theorem work_func_read_fail (st : State) (env : WorkEnv) (hen : st.enable ≠ 0)
    (hfail : st.sl_handle = false ∨ env.rd.res < 2) :
    ak89xx_work_func st env =
      { st with
        timer := some (toS32 (st.delay * 1000000))
        bus := if st.sl_handle = false then st.bus
               else st.bus ++ [BusOp.read AK89XX_REG_ST1 8]
        bus_enable := if st.sl_handle = false then st.bus_enable
                      else st.bus_enable ++ [st.enable]
        sink := st.sink ++ output_event st.value
                  (toS32 (toU32 (env.now >>> (32 : Nat))))
                  (toS32 (toU32 (env.now % 4294967296))) } := by
  obtain ⟨e, he, hrd⟩ := ak89xx_read_fail (hrtimer_start st (toS32 (st.delay * 1000000)))
    ⟨0, 0, 0⟩ env.rd env.wr hfail
  unfold ak89xx_work_func
  rw [if_neg hen]
  simp only [hrd, he, if_false]
  by_cases hh : st.sl_handle = false <;>
    simp [hh, hrtimer_start, input_report_rel, input_sync, output_event]

/-- The whole effect of a worker run whose burst read succeeds. -/
theorem work_func_read_ok (st : State) (env : WorkEnv) (hen : st.enable ≠ 0)
    (hh : st.sl_handle = true) (hrd : 2 ≤ env.rd.res) :
    ak89xx_work_func st env =
      { st with
        timer := some (toS32 (st.delay * 1000000))
        bus := st.bus ++ [BusOp.read AK89XX_REG_ST1 8,
          BusOp.write AK89XX_REG_CNTL (cntl_byte (scale_of st) AK89XX_CNTL_MODE_SNG_MEASURE)]
        bus_enable := st.bus_enable ++ [st.enable, st.enable]
        sink := st.sink ++ output_event
                  (if (if env.wr < 1 then (if env.wr = 0 then - EIO else env.wr)
                       else read_status (byteAt env.rd.data 0) (byteAt env.rd.data 7)) = 0
                   then ⟨asa_adjust (raw_axis env.rd.data 0) st.asa.x,
                         asa_adjust (raw_axis env.rd.data 1) st.asa.y,
                         asa_adjust (raw_axis env.rd.data 2) st.asa.z⟩
                   else st.value)
                  (toS32 (toU32 (env.now >>> (32 : Nat))))
                  (toS32 (toU32 (env.now % 4294967296)))
        value := if (if env.wr < 1 then (if env.wr = 0 then - EIO else env.wr)
                     else read_status (byteAt env.rd.data 0) (byteAt env.rd.data 7)) = 0
                 then ⟨asa_adjust (raw_axis env.rd.data 0) st.asa.x,
                       asa_adjust (raw_axis env.rd.data 1) st.asa.y,
                       asa_adjust (raw_axis env.rd.data 2) st.asa.z⟩
                 else st.value } := by
  have hr := ak89xx_read_ok (hrtimer_start st (toS32 (st.delay * 1000000)))
    ⟨0, 0, 0⟩ env.rd env.wr hh hrd
  unfold ak89xx_work_func
  rw [if_neg hen]
  simp only [hr]
  simp [hrtimer_start, input_report_rel, input_sync, output_event, scale_of]

/-- The status computed by `ak89xx_read`, by bits: the overrun bit of ST1 (the
last test in program order) resets it to 0 whatever ST2 holds. -/
theorem read_status_eq (stat stat2 : Nat) :
    read_status stat stat2 =
      if stat.testBit 1 = true then 0
      else if stat2.testBit 3 = true then 8
      else if stat2.testBit 2 = true then 4
      else 0 := by
  have h1 := and_two_pow_ne_zero stat 1
  have h2 := and_two_pow_ne_zero stat2 2
  have h3 := and_two_pow_ne_zero stat2 3
  norm_num at h1 h2 h3
  unfold read_status
  by_cases b1 : stat.testBit 1 = true <;> by_cases b2 : stat2.testBit 2 = true <;>
    by_cases b3 : stat2.testBit 3 = true <;>
    simp [h1, h2, h3, b1, b2, b3]

/-- `inv_serial_single_write` changes nothing but the bus record. -/
theorem single_write_frame (st : State) (reg data : Nat) (res : Int) :
    (inv_serial_single_write st reg data res).2
      = { st with bus := (inv_serial_single_write st reg data res).2.bus
                  bus_enable := (inv_serial_single_write st reg data res).2.bus_enable } := by
  unfold inv_serial_single_write
  split_ifs <;> rfl

/-- `inv_serial_read` changes nothing but the bus record. -/
theorem serial_read_frame (st : State) (reg len : Nat) (rd : I2cRead) :
    (inv_serial_read st reg len rd).2.2
      = { st with bus := (inv_serial_read st reg len rd).2.2.bus
                  bus_enable := (inv_serial_read st reg len rd).2.2.bus_enable } := by
  unfold inv_serial_read
  split_ifs <;> rfl

/-- `ak89xx_init` changes nothing but the bus record and the calibration
bytes. -/
theorem init_frame (st : State) (x : InitXfer) :
    (ak89xx_init st x).2
      = { st with bus := (ak89xx_init st x).2.bus
                  bus_enable := (ak89xx_init st x).2.bus_enable
                  asa := (ak89xx_init st x).2.asa } := by
  unfold ak89xx_init
  have f1 := single_write_frame st AK89XX_REG_CNTL AK89XX_CNTL_MODE_POWER_DOWN x.w1
  generalize inv_serial_single_write st AK89XX_REG_CNTL AK89XX_CNTL_MODE_POWER_DOWN x.w1
    = r1 at f1 ⊢
  obtain ⟨e1, st1⟩ := r1
  simp only at f1 ⊢
  by_cases h1 : e1 ≠ 0
  · rw [if_pos h1, f1]
  · rw [if_neg h1]
    have f2 := single_write_frame st1 AK89XX_REG_CNTL AK89XX_CNTL_MODE_FUSE_ACCESS x.w2
    generalize inv_serial_single_write st1 AK89XX_REG_CNTL AK89XX_CNTL_MODE_FUSE_ACCESS x.w2
      = r2 at f2 ⊢
    obtain ⟨e2, st2⟩ := r2
    simp only at f2 ⊢
    by_cases h2 : e2 ≠ 0
    · rw [if_pos h2, f2, f1]
    · rw [if_neg h2]
      have f3 := serial_read_frame st2 AK89XX_FUSE_ASAX 3 x.rd
      generalize inv_serial_read st2 AK89XX_FUSE_ASAX 3 x.rd = r3 at f3 ⊢
      obtain ⟨e3, d3, st3⟩ := r3
      simp only at f3 ⊢
      by_cases h3 : e3 ≠ 0
      · rw [if_pos h3, f3, f2, f1]
      · rw [if_neg h3, single_write_frame, f3, f2, f1]

/-- What `ak89xx_set_enable` does, by cases on the request and the flag. -/
theorem set_enable_eq (st : State) (enable res : Int) :
    ak89xx_set_enable st enable res =
      if enable ≠ 0 then
        if st.enable = 0 then
          { (inv_serial_single_write st AK89XX_REG_CNTL
              (cntl_byte (scale_of st) AK89XX_CNTL_MODE_SNG_MEASURE) res).2 with
            enable := 1
            timer := some (toS32 (st.delay * 1000000)) }
        else st
      else
        if st.enable = 1 then
          (inv_serial_single_write
            { st with enable := 0, work_pending := false, delay := AK89XX_DEFAULT_DELAY }
            AK89XX_REG_CNTL (cntl_byte (scale_of st) AK89XX_CNTL_MODE_POWER_DOWN) res).2
        else st := by
  unfold ak89xx_set_enable
  by_cases he : enable ≠ 0
  · by_cases hp : st.enable = 0
    · simp only [if_pos he, if_pos hp]
      rw [single_write_frame]
      rfl
    · simp only [if_pos he, if_neg hp]
  · by_cases hp : st.enable = 1
    · simp only [if_neg he, if_pos hp]
      rfl
    · simp only [if_neg he, if_neg hp]

/-- A disable request leaves the flag at 0 with no work queued. -/
theorem set_enable_zero (st : State) (res : Int) (hinv : Inv st) :
    (ak89xx_set_enable st 0 res).enable = 0 ∧
    (ak89xx_set_enable st 0 res).work_pending = false := by
  rw [set_enable_eq]
  simp only [ne_eq, not_true_eq_false, if_false]
  by_cases hp : st.enable = 1
  · rw [if_pos hp, single_write_frame]
    exact ⟨rfl, rfl⟩
  · rw [if_neg hp]
    have h0 : st.enable = 0 := by
      rcases hinv.1 with h | h
      · exact h
      · exact absurd h hp
    exact ⟨h0, hinv.2 h0⟩

/-- The worker changes nothing but the timer, the bus record, the sink and the
stored sample. -/
theorem work_func_frame (st : State) (env : WorkEnv) :
    ak89xx_work_func st env =
      { st with timer := (ak89xx_work_func st env).timer
                bus := (ak89xx_work_func st env).bus
                bus_enable := (ak89xx_work_func st env).bus_enable
                sink := (ak89xx_work_func st env).sink
                value := (ak89xx_work_func st env).value } := by
  by_cases hen : st.enable = 0
  · unfold ak89xx_work_func
    rw [if_pos hen]
  · by_cases hfail : st.sl_handle = false ∨ env.rd.res < 2
    · rw [work_func_read_fail st env hen hfail]
    · have hh : st.sl_handle = true := by
        cases h : st.sl_handle
        · exact absurd (Or.inl h) hfail
        · rfl
      have hrd : 2 ≤ env.rd.res := by
        by_contra hlt
        exact hfail (Or.inr (by omega))
      rw [work_func_read_ok st env hen hh hrd]

/-- A rate write changes nothing but the period. -/
theorem rate_store_frame (st st1 : State) (error : Int) (data count : Nat) (r : Int)
    (h : ak89xx_rate_store st error data count = some (r, st1)) :
    st1 = { st with delay := st1.delay } := by
  unfold ak89xx_rate_store at h
  by_cases he : error ≠ 0
  · rw [if_pos he] at h
    simp only [Option.some.injEq, Prod.mk.injEq] at h
    rw [← h.2]
  · rw [if_neg he] at h
    by_cases hd : data = 0
    · rw [if_pos hd] at h
      exact absurd h (by simp)
    · rw [if_neg hd] at h
      simp only [Option.some.injEq, Prod.mk.injEq] at h
      rw [← h.2]

/-- A scale write changes nothing but the scale. -/
theorem scale_store_frame (st : State) (result : Int) (data count : Nat) :
    (ak89xx_scale_store st result data count).2 =
      { st with compass_scale := (ak89xx_scale_store st result data count).2.compass_scale } := by
  unfold ak89xx_scale_store
  split_ifs <;> rfl

/-- The reset endpoint changes nothing but the bus record and the calibration
bytes. -/
theorem reset_show_frame (st : State) (x : InitXfer) :
    (ak89xx_reset_show st x).2 =
      { st with bus := (ak89xx_reset_show st x).2.bus
                bus_enable := (ak89xx_reset_show st x).2.bus_enable
                asa := (ak89xx_reset_show st x).2.asa } := by
  unfold ak89xx_reset_show
  by_cases he : st.enable ≠ 0
  · simp only [if_pos he]
  · simp only [if_neg he]
    exact init_frame st x

/-- The steps other than enable requests, timer firings and worker runs leave
the enable flag and the work item alone. -/
theorem step_store_frame (st st1 : State) (a : Action)
    (hstep : step st a = some st1)
    (ha : (∃ error data count, a = Action.rate_store error data count) ∨
          (∃ result data count, a = Action.scale_store result data count) ∨
          (∃ x, a = Action.reset_show x)) :
    st1.enable = st.enable ∧ st1.work_pending = st.work_pending := by
  rcases ha with ⟨error, data, count, rfl⟩ | ⟨result, data, count, rfl⟩ | ⟨x, rfl⟩
  · simp only [step, Option.map_eq_some'] at hstep
    obtain ⟨⟨r, st2⟩, h1, h2⟩ := hstep
    simp only at h2
    subst h2
    rw [rate_store_frame st st2 error data count r h1]
    exact ⟨rfl, rfl⟩
  · simp only [step, Option.some.injEq] at hstep
    subst hstep
    rw [scale_store_frame]
    exact ⟨rfl, rfl⟩
  · simp only [step, Option.some.injEq] at hstep
    subst hstep
    rw [reset_show_frame]
    exact ⟨rfl, rfl⟩

/-- Every step preserves the invariant. -/
theorem step_inv (st st1 : State) (a : Action) (hinv : Inv st)
    (hstep : step st a = some st1) : Inv st1 := by
  cases a with
  | set_enable enable res =>
    simp only [step, Option.some.injEq] at hstep
    subst hstep
    rw [set_enable_eq]
    by_cases he : enable ≠ 0
    · by_cases hp : st.enable = 0
      · rw [if_pos he, if_pos hp]
        exact ⟨Or.inr rfl, fun h => absurd (show (1 : Int) = 0 from h) (by decide)⟩
      · rw [if_pos he, if_neg hp]
        exact hinv
    · by_cases hp : st.enable = 1
      · rw [if_neg he, if_pos hp, single_write_frame]
        exact ⟨Or.inl rfl, fun _ => rfl⟩
      · rw [if_neg he, if_neg hp]
        exact hinv
  | timer_fire =>
    simp only [step] at hstep
    cases ht : st.timer with
    | none =>
      rw [ht] at hstep
      simp only [Option.some.injEq] at hstep
      subst hstep
      exact hinv
    | some ns =>
      rw [ht] at hstep
      simp only [Option.some.injEq] at hstep
      subst hstep
      unfold ak89xx_timer_func
      by_cases hen : st.enable ≠ 0
      · rw [if_pos hen]
        exact ⟨hinv.1, fun h => absurd h hen⟩
      · rw [if_neg hen]
        exact hinv
  | work_run env =>
    simp only [step] at hstep
    by_cases hw : st.work_pending = true
    · rw [if_pos hw] at hstep
      simp only [Option.some.injEq] at hstep
      subst hstep
      have hen : st.enable ≠ 0 := by
        intro h0
        have := hinv.2 h0
        rw [hw] at this
        exact absurd this (by decide)
      rw [work_func_frame]
      exact ⟨hinv.1, fun h => absurd h hen⟩
    · rw [if_neg hw] at hstep
      simp only [Option.some.injEq] at hstep
      subst hstep
      exact hinv
  | rate_store error data count =>
    obtain ⟨h1, h2⟩ := step_store_frame st st1 _ hstep (Or.inl ⟨_, _, _, rfl⟩)
    unfold Inv
    rw [h1, h2]
    exact hinv
  | scale_store result data count =>
    obtain ⟨h1, h2⟩ := step_store_frame st st1 _ hstep (Or.inr (Or.inl ⟨_, _, _, rfl⟩))
    unfold Inv
    rw [h1, h2]
    exact hinv
  | reset_show x =>
    obtain ⟨h1, h2⟩ := step_store_frame st st1 _ hstep (Or.inr (Or.inr ⟨_, rfl⟩))
    unfold Inv
    rw [h1, h2]
    exact hinv

/-- Every run preserves the invariant. -/
theorem run_inv (acts : List Action) (st st1 : State) (hinv : Inv st)
    (hrun : run st acts = some st1) : Inv st1 := by
  induction acts generalizing st with
  | nil =>
    simp only [run, Option.some.injEq] at hrun
    subst hrun
    exact hinv
  | cons a rest ih =>
    simp only [run, Option.bind_eq_some] at hrun
    obtain ⟨st2, h1, h2⟩ := hrun
    exact ih st2 (step_inv st st2 a hinv h1) h2

/-- A run over a concatenation is the run over the first part followed by the
run over the second. -/
theorem run_append (l1 l2 : List Action) (st : State) :
    run st (l1 ++ l2) = (run st l1).bind (fun s => run s l2) := by
  induction l1 generalizing st with
  | nil => simp [run]
  | cons a rest ih =>
    simp only [List.cons_append, run]
    cases step st a with
    | none => simp
    | some s => simp [ih]

/-- A step that is not an enable request keeps a disabled, idle state disabled
and idle. -/
theorem step_stays_disabled (st st1 : State) (a : Action)
    (h0 : st.enable = 0) (hw : st.work_pending = false) (ha : a.is_enable = false)
    (hstep : step st a = some st1) :
    st1.enable = 0 ∧ st1.work_pending = false := by
  cases a with
  | set_enable enable res =>
    have he : enable = 0 := by
      simpa [Action.is_enable] using ha
    subst he
    simp only [step, Option.some.injEq] at hstep
    subst hstep
    exact set_enable_zero st res ⟨Or.inl h0, fun _ => hw⟩
  | timer_fire =>
    simp only [step] at hstep
    cases ht : st.timer with
    | none =>
      rw [ht] at hstep
      simp only [Option.some.injEq] at hstep
      subst hstep
      exact ⟨h0, hw⟩
    | some ns =>
      rw [ht] at hstep
      simp only [Option.some.injEq] at hstep
      subst hstep
      unfold ak89xx_timer_func
      rw [if_neg (by simpa using h0)]
      exact ⟨h0, hw⟩
  | work_run env =>
    simp only [step, hw, Bool.false_eq_true, if_false, Option.some.injEq] at hstep
    subst hstep
    exact ⟨h0, hw⟩
  | rate_store error data count =>
    obtain ⟨h1, h2⟩ := step_store_frame st st1 _ hstep (Or.inl ⟨_, _, _, rfl⟩)
    rw [h1, h2]
    exact ⟨h0, hw⟩
  | scale_store result data count =>
    obtain ⟨h1, h2⟩ := step_store_frame st st1 _ hstep (Or.inr (Or.inl ⟨_, _, _, rfl⟩))
    rw [h1, h2]
    exact ⟨h0, hw⟩
  | reset_show x =>
    obtain ⟨h1, h2⟩ := step_store_frame st st1 _ hstep (Or.inr (Or.inr ⟨_, rfl⟩))
    rw [h1, h2]
    exact ⟨h0, hw⟩

/-- A run without enable requests keeps a disabled, idle state disabled and
idle. -/
theorem run_stays_disabled (acts : List Action) (st st1 : State)
    (h0 : st.enable = 0) (hw : st.work_pending = false)
    (hacts : ∀ a ∈ acts, a.is_enable = false)
    (hrun : run st acts = some st1) :
    st1.enable = 0 ∧ st1.work_pending = false := by
  induction acts generalizing st with
  | nil =>
    simp only [run, Option.some.injEq] at hrun
    subst hrun
    exact ⟨h0, hw⟩
  | cons a rest ih =>
    simp only [run, Option.bind_eq_some] at hrun
    obtain ⟨st2, h1, h2⟩ := hrun
    have hs := step_stays_disabled st st2 a h0 hw (hacts a (List.mem_cons_self a rest)) h1
    exact ih st2 hs.1 hs.2 (fun b hb => hacts b (List.mem_cons_of_mem a hb)) h2

/-- A bound driver starts in a state that satisfies the invariant. -/
theorem probe_inv (compass_id : Nat) (x : InitXfer) (s0 : State)
    (hprobe : ak89xx_mod_probe compass_id x = Except.ok s0) : Inv s0 := by
  unfold ak89xx_mod_probe at hprobe
  have hf := init_frame (probe_state compass_id) x
  generalize ak89xx_init (probe_state compass_id) x = r at hprobe hf
  obtain ⟨e, st⟩ := r
  simp only at hprobe hf
  by_cases hneg : e < 0
  · rw [if_pos hneg] at hprobe
    exact absurd hprobe (by simp)
  · rw [if_neg hneg] at hprobe
    simp only [Except.ok.injEq] at hprobe
    subst hprobe
    rw [hf]
    exact ⟨Or.inl rfl, fun _ => rfl⟩

/-- No step changes the adapter handle, and every step leaves the period
inside `[10, 200]` if it was there. -/
theorem step_handle_delay (st st1 : State) (a : Action)
    (hstep : step st a = some st1) :
    st1.sl_handle = st.sl_handle ∧
    (10 ≤ st.delay ∧ st.delay ≤ 200 → 10 ≤ st1.delay ∧ st1.delay ≤ 200) := by
  cases a with
  | set_enable enable res =>
    simp only [step, Option.some.injEq] at hstep
    subst hstep
    rw [set_enable_eq]
    by_cases he : enable ≠ 0
    · by_cases hp : st.enable = 0
      · rw [if_pos he, if_pos hp, single_write_frame]
        exact ⟨rfl, fun h => h⟩
      · rw [if_pos he, if_neg hp]
        exact ⟨rfl, fun h => h⟩
    · by_cases hp : st.enable = 1
      · rw [if_neg he, if_pos hp, single_write_frame]
        refine ⟨rfl, fun _ => ?_⟩
        show (10 : Int) ≤ AK89XX_DEFAULT_DELAY ∧ AK89XX_DEFAULT_DELAY ≤ 200
        decide
      · rw [if_neg he, if_neg hp]
        exact ⟨rfl, fun h => h⟩
  | timer_fire =>
    simp only [step] at hstep
    cases ht : st.timer with
    | none =>
      rw [ht] at hstep
      simp only [Option.some.injEq] at hstep
      subst hstep
      exact ⟨rfl, fun h => h⟩
    | some ns =>
      rw [ht] at hstep
      simp only [Option.some.injEq] at hstep
      subst hstep
      unfold ak89xx_timer_func
      split_ifs
      · exact ⟨rfl, fun h => h⟩
      · exact ⟨rfl, fun h => h⟩
  | work_run env =>
    simp only [step] at hstep
    by_cases hw : st.work_pending = true
    · rw [if_pos hw] at hstep
      simp only [Option.some.injEq] at hstep
      subst hstep
      rw [work_func_frame]
      exact ⟨rfl, fun h => h⟩
    · rw [if_neg hw] at hstep
      simp only [Option.some.injEq] at hstep
      subst hstep
      exact ⟨rfl, fun h => h⟩
  | rate_store error data count =>
    simp only [step, Option.map_eq_some'] at hstep
    obtain ⟨⟨r, st2⟩, h1, h2⟩ := hstep
    simp only at h2
    subst h2
    refine ⟨?_, ?_⟩
    · rw [rate_store_frame st st2 error data count r h1]
    · intro hr
      by_cases he : error ≠ 0
      · unfold ak89xx_rate_store at h1
        rw [if_pos he] at h1
        simp only [Option.some.injEq, Prod.mk.injEq] at h1
        rw [← h1.2]
        exact hr
      · have he0 : error = 0 := by
          by_contra hne
          exact he hne
        subst he0
        by_cases hd : data = 0
        · unfold ak89xx_rate_store at h1
          simp only [ne_eq, not_true_eq_false, if_false, hd, if_true] at h1
          exact absurd h1 (by simp)
        · rw [rate_store_eq st data count (by omega)] at h1
          simp only [Option.some.injEq, Prod.mk.injEq] at h1
          rw [← h1.2]
          show (10 : Int) ≤ ((max 10 (min 200 (1000 / data)) : Nat) : Int) ∧
            ((max 10 (min 200 (1000 / data)) : Nat) : Int) ≤ 200
          omega
  | scale_store result data count =>
    simp only [step, Option.some.injEq] at hstep
    subst hstep
    rw [scale_store_frame]
    exact ⟨rfl, fun h => h⟩
  | reset_show x =>
    simp only [step, Option.some.injEq] at hstep
    subst hstep
    rw [reset_show_frame]
    exact ⟨rfl, fun h => h⟩

/-- In every state a bound driver reaches, the adapter handle is set and the
period lies in `[10, 200]`. -/
theorem run_handle_delay (acts : List Action) (st st1 : State)
    (hh : st.sl_handle = true) (hd : 10 ≤ st.delay ∧ st.delay ≤ 200)
    (hrun : run st acts = some st1) :
    st1.sl_handle = true ∧ 10 ≤ st1.delay ∧ st1.delay ≤ 200 := by
  induction acts generalizing st with
  | nil =>
    simp only [run, Option.some.injEq] at hrun
    subst hrun
    exact ⟨hh, hd⟩
  | cons a rest ih =>
    simp only [run, Option.bind_eq_some] at hrun
    obtain ⟨st2, h1, h2⟩ := hrun
    have hs := step_handle_delay st st2 a h1
    exact ih st2 (hs.1.trans hh) (hs.2 hd) h2

/-- A bound driver starts with the adapter handle set and the default period. -/
theorem probe_handle_delay (compass_id : Nat) (x : InitXfer) (s0 : State)
    (hprobe : ak89xx_mod_probe compass_id x = Except.ok s0) :
    s0.sl_handle = true ∧ s0.delay = 100 := by
  unfold ak89xx_mod_probe at hprobe
  have hf := init_frame (probe_state compass_id) x
  generalize ak89xx_init (probe_state compass_id) x = r at hprobe hf
  obtain ⟨e, st⟩ := r
  simp only at hprobe hf
  by_cases hneg : e < 0
  · rw [if_pos hneg] at hprobe
    exact absurd hprobe (by simp)
  · rw [if_neg hneg] at hprobe
    simp only [Except.ok.injEq] at hprobe
    subst hprobe
    rw [hf]
    exact ⟨rfl, rfl⟩

/-- With the period in `[10, 200]`, the rate read endpoint prints
`1000 / delay`, a value in `[5, 100]`. -/
theorem rate_show_in_range (st : State) (hd : 10 ≤ st.delay ∧ st.delay ≤ 200) :
    5 ≤ 1000 / st.delay ∧ 1000 / st.delay ≤ 100 ∧
    ak89xx_rate_show st =
      some (sprintf_d (1000 / st.delay), sprintf_d_len (1000 / st.delay)) := by
  have hu : toU32 st.delay = st.delay := by
    unfold toU32
    omega
  have h5 : 5 ≤ 1000 / st.delay := by
    apply (Int.le_ediv_iff_mul_le (by omega)).mpr
    omega
  have h100 : 1000 / st.delay ≤ 100 := by
    have : 1000 / st.delay < 101 := by
      apply (Int.ediv_lt_iff_lt_mul (by omega)).mpr
      omega
    omega
  refine ⟨h5, h100, ?_⟩
  unfold ak89xx_rate_show
  simp only [hu]
  rw [if_neg (by omega), toS32_of_range _ (by omega) (by omega)]

/-- The only step without defined behaviour is a parsed rate write of 0 Hz. -/
theorem step_none_iff (st : State) (a : Action) :
    step st a = none ↔ ∃ count, a = Action.rate_store 0 0 count := by
  cases a with
  | set_enable enable res => simp [step]
  | timer_fire =>
    simp only [step]
    cases st.timer <;> simp
  | work_run env =>
    simp only [step]
    split_ifs <;> simp
  | scale_store result data count => simp [step]
  | reset_show x => simp [step]
  | rate_store error data count =>
    simp only [step, Option.map_eq_none', Action.rate_store.injEq]
    unfold ak89xx_rate_store
    by_cases he : error ≠ 0
    · rw [if_pos he]
      simp only [false_iff, not_exists, reduceCtorEq]
      intro c hc
      exact he hc.1
    · have he0 : error = 0 := by
        by_contra hne
        exact he hne
      subst he0
      rw [if_neg he]
      by_cases hd : data = 0
      · subst hd
        simp
      · rw [if_neg hd]
        simp [hd]

/-- A list of length 8 is its eight elements. -/
theorem list_of_length_eight (l : List Nat) (h : l.length = 8) :
    ∃ b0 b1 b2 b3 b4 b5 b6 b7, l = [b0, b1, b2, b3, b4, b5, b6, b7] :=
  match l, h with
  | [b0, b1, b2, b3, b4, b5, b6, b7], _ => ⟨b0, b1, b2, b3, b4, b5, b6, b7, rfl⟩

/-- The code's `(hi << 8) | lo` on bytes is `lo + 256 * hi`. -/
theorem shl8_or (hi lo : Nat) (hlo : lo < 256) : (hi <<< 8) ||| lo = lo + 256 * hi := by
  have h := Nat.mul_add_lt_is_or (show lo < 2 ^ 8 by omega) hi
  rw [Nat.shiftLeft_eq, Nat.mul_comm, ← h]
  omega

/-- Every element read from a buffer of bytes is a byte. -/
theorem getD_lt_256 (l : List Nat) (h : ∀ b ∈ l, b < 256) (j : Nat) : l.getD j 0 < 256 := by
  by_cases hj : j < l.length
  · rw [List.getD_eq_getElem l 0 hj]
    exact h _ (List.getElem_mem hj)
  · rw [List.getD_eq_default l 0 (by omega)]
    omega

/-- The decode of one axis from a low and a high byte: the two's-complement
reading of the little-endian word, whose re-encoding gives the two bytes back. -/
theorem raw_axis_eq (regs : List Nat) (i : Nat)
    (h1 : regs.getD (2 * i + 1) 0 < 256) (h2 : regs.getD (2 * i + 2) 0 < 256) :
    raw_axis regs i = s16_of_u16 (regs.getD (2 * i + 1) 0 + 256 * regs.getD (2 * i + 2) 0) ∧
    le16_bytes (raw_axis regs i) = [regs.getD (2 * i + 1) 0, regs.getD (2 * i + 2) 0] := by
  unfold raw_axis byteAt
  rw [Nat.mod_eq_of_lt h1, Nat.mod_eq_of_lt h2, shl8_or _ _ h1]
  generalize regs.getD (2 * i + 1) 0 = lo at h1 h2 ⊢
  generalize regs.getD (2 * i + 2) 0 = hi at h1 h2 ⊢
  obtain ⟨v, hv⟩ : ∃ v, toS16 ((lo + 256 * hi : Nat) : Int) = v := ⟨_, rfl⟩
  rw [hv]
  unfold toS16 at hv
  push_cast at hv
  constructor
  · unfold s16_of_u16
    push_cast
    split_ifs <;> omega
  · have e1 : ((v % 65536) % 256).toNat = lo := by omega
    have e2 : ((v % 65536) / 256).toNat = hi := by omega
    unfold le16_bytes
    rw [e1, e2]

/-- For a `short` value `r` and a calibration value `a` in `[-128, 127]`, the
expression `(r * (a + 128)) >> 8` assigned back to the `short` slot is the
mathematical floor of `r * (a + 128) / 256` (no wraparound in the `int` product
or in the narrowing to 16 bits); with `a = 0` it is the floor of `r / 2`, also
for negative `r`. -/
theorem asa_adjust_eq_floor (r a : Int) (hr : -32768 ≤ r ∧ r ≤ 32767)
    (ha : -128 ≤ a ∧ a ≤ 127) :
    asa_adjust r a = ⌊((r * (a + 128) : Int) : ℚ) / 256⌋ ∧
    asa_adjust r a = (r * (a + 128)) >>> (8 : Nat) ∧
    (a = 0 → asa_adjust r a = ⌊(r : ℚ) / 2⌋) := by
  have hex := asa_adjust_exact r a hr.1 hr.2 ha.1 ha.2
  have hfl : ∀ (n : Int) (d : Nat), ⌊(n : ℚ) / (d : ℚ)⌋ = n / (d : Int) :=
    Rat.floor_intCast_div_natCast
  refine ⟨?_, ?_, ?_⟩
  · have h := hfl (r * (a + 128)) 256
    norm_num at h
    rw [hex]
    exact_mod_cast h.symm
  · exact asa_adjust_shift r a hr ha
  · intro h0
    have h := hfl r 2
    norm_num at h
    rw [hex, h0, h]
    omega

/-- An instance: `r = -201`, `a = 0` gives `-101`, the floor of `-100.5`. -/
theorem asa_adjust_eq_floor_example :
    (-32768 ≤ (-201 : Int) ∧ (-201 : Int) ≤ 32767) ∧
    (-128 ≤ (0 : Int) ∧ (0 : Int) ≤ 127) ∧
    asa_adjust (-201) 0 = -101 ∧
    (asa_adjust (-201) 0 = ⌊(((-201) * (0 + 128) : Int) : ℚ) / 256⌋ ∧
     asa_adjust (-201) 0 = ((-201 : Int) * (0 + 128)) >>> (8 : Nat) ∧
     ((0 : Int) = 0 → asa_adjust (-201) 0 = ⌊((-201 : Int) : ℚ) / 2⌋)) :=
  ⟨by decide, by decide, by decide,
   asa_adjust_eq_floor (-201) 0 (by decide) (by decide)⟩

/-- C1, evaluated where the code departs from it. The burst has an error bit
set in ST2 (data error `0x04`, or overflow `0x08`) and the overrun bit set in
ST1 (`0x02`); the read and the trigger write succeed. The overrun test, the
last of the four, resets the status to 0, `ak89xx_read` returns 0, and the
worker stores and emits the freshly read axes, calibrated: `(50, -100, 150)`
instead of the stored `(1, 2, 3)`. -/
theorem work_func_overrun_masks_data_error :
    ex_enabled.enable ≠ 0 ∧
    (byteAt (ex_burst 0x02 0x04) 7).testBit 2 = true ∧
    (ak89xx_read ex_enabled ⟨0, 0, 0⟩ ⟨2, ex_burst 0x02 0x04⟩ 1).1 = 0 ∧
    (ak89xx_work_func ex_enabled ⟨5000000000, ⟨2, ex_burst 0x02 0x04⟩, 1⟩).value
      = ⟨50, -100, 150⟩ ∧
    (ak89xx_work_func ex_enabled ⟨5000000000, ⟨2, ex_burst 0x02 0x04⟩, 1⟩).sink
      = output_event ⟨50, -100, 150⟩ 1 705032704 ∧
    (ak89xx_work_func ex_enabled ⟨5000000000, ⟨2, ex_burst 0x02 0x04⟩, 1⟩).value
      ≠ ex_enabled.value ∧
    (byteAt (ex_burst 0x03 0x08) 7).testBit 3 = true ∧
    (ak89xx_work_func ex_enabled ⟨5000000000, ⟨2, ex_burst 0x03 0x08⟩, 1⟩).value
      = ⟨50, -100, 150⟩ ∧
    (ak89xx_work_func ex_enabled ⟨5000000000, ⟨2, ex_burst 0x03 0x08⟩, 1⟩).sink
      = output_event ⟨50, -100, 150⟩ 1 705032704 := by
  decide

/-- The part of C1 the code does meet: with the overrun bit of ST1 clear, a
burst whose ST2 has the data-error or the overflow bit set makes the worker
keep and emit the stored axes, with the clock reading of this run, whether or
not the trigger write succeeds. -/
theorem work_func_status_error_retains (st : State) (env : WorkEnv)
    (hen : st.enable ≠ 0) (hh : st.sl_handle = true) (hrd : 2 ≤ env.rd.res)
    (herr : (byteAt env.rd.data 7).testBit 2 = true ∨ (byteAt env.rd.data 7).testBit 3 = true)
    (hovr : (byteAt env.rd.data 0).testBit 1 = false)
    (hts : 0 ≤ env.now ∧ env.now < 2 ^ 63) :
    (ak89xx_work_func st env).value = st.value ∧
    ∃ hi lo, (ak89xx_work_func st env).sink = st.sink ++ output_event st.value hi lo ∧
      toU32 hi * 2 ^ 32 + toU32 lo = env.now := by
  have hret : ¬ ((if env.wr < 1 then (if env.wr = 0 then - EIO else env.wr)
      else read_status (byteAt env.rd.data 0) (byteAt env.rd.data 7)) = 0) := by
    rw [read_status_eq]
    by_cases hw : env.wr < 1
    · by_cases hw0 : env.wr = 0
      · simp [hw0, EIO]
      · simp [hw, hw0]
    · by_cases b3 : (byteAt env.rd.data 7).testBit 3 = true
      · simp [hw, hovr, b3]
      · have b2 : (byteAt env.rd.data 7).testBit 2 = true := by
          rcases herr with h | h
          · exact h
          · exact absurd h b3
        simp [hw, hovr, b3, b2]
  rw [work_func_read_ok st env hen hh hrd, if_neg hret]
  exact ⟨rfl, _, _, rfl, timestamp_halves env.now hts.1 hts.2⟩

/-- C4, as stated, fails: a write of 7 Hz stores the truncated period 142,
while the exact quotient 1000 / 7 = 142.857... rounds to 143. -/
theorem rate_store_not_rounded :
    ak89xx_rate_store (probe_state ID_AK8975) 0 7 2
      = some (2, { probe_state ID_AK8975 with delay := 142 }) ∧
    spec_period_rounded 7 = 143 ∧
    ¬ (∀ st1, ak89xx_rate_store (probe_state ID_AK8975) 0 7 2 = some (2, st1) →
        st1.delay = spec_period_rounded 7) := by
  have h1 : ak89xx_rate_store (probe_state ID_AK8975) 0 7 2
      = some (2, { probe_state ID_AK8975 with delay := 142 }) := by decide
  have h2 : spec_period_rounded 7 = 143 := by
    have hr : round ((1000 : ℚ) / ((7 : Nat) : ℚ)) = 143 := by
      rw [round_eq, Int.floor_eq_iff]
      constructor <;> norm_num
    unfold spec_period_rounded
    rw [hr]
    decide
  refine ⟨h1, h2, ?_⟩
  intro hall
  have h3 := hall _ h1
  rw [h2] at h3
  exact absurd h3 (by decide)

/-- C4, amended. For every parsed rate of at least 1 Hz the write succeeds, the
stored period lies in `[10, 200]` and equals the clamp of the exact quotient
`1000 / rate_hz` rounded down (not to the nearest integer); no other field
changes. -/
theorem rate_store_floor_clamped (st : State) (data count : Nat) (h : 1 ≤ data) :
    ∃ st1, ak89xx_rate_store st 0 data count = some ((count : Int), st1) ∧
      10 ≤ st1.delay ∧ st1.delay ≤ 200 ∧
      st1.delay = spec_clamp ⌊(1000 : ℚ) / (data : ℚ)⌋ ∧
      st1 = { st with delay := st1.delay } := by
  refine ⟨_, rate_store_eq st data count h, ?_, ?_, ?_, rfl⟩
  · show (10 : Int) ≤ ((max 10 (min 200 (1000 / data)) : Nat) : Int)
    omega
  · show ((max 10 (min 200 (1000 / data)) : Nat) : Int) ≤ 200
    omega
  · show ((max 10 (min 200 (1000 / data)) : Nat) : Int) = _
    have hfl : ⌊(1000 : ℚ) / (data : ℚ)⌋ = ((1000 / data : Nat) : Int) := by
      have := Rat.floor_intCast_div_natCast 1000 data
      push_cast at this ⊢
      exact this
    rw [hfl]
    unfold spec_clamp
    omega

/-- Witness for C4 (amended): 7 Hz stores 142. -/
theorem rate_store_floor_clamped_witness :
    1 ≤ 7 ∧
    ∃ st1, ak89xx_rate_store (probe_state ID_AK8975) 0 7 2 = some (((2 : Nat) : Int), st1) ∧
      10 ≤ st1.delay ∧ st1.delay ≤ 200 ∧
      st1.delay = spec_clamp ⌊(1000 : ℚ) / ((7 : Nat) : ℚ)⌋ ∧
      st1 = { probe_state ID_AK8975 with delay := st1.delay } :=
  ⟨by decide, rate_store_floor_clamped (probe_state ID_AK8975) 7 2 (by decide)⟩

/-- C5. For every rate of at least 1 Hz written through the rate endpoint the
write succeeds and stores `clamp(1000 / rate_hz, 10, 200)` with truncating
integer division, leaving every other field as it was; 5 Hz stores 200 and
500 Hz stores 10. -/
theorem rate_store_truncating_clamp (st : State) (data count : Nat) (h : 1 ≤ data) :
    ak89xx_rate_store st 0 data count =
      some ((count : Int), { st with delay := spec_clamp ((1000 / data : Nat) : Int) }) ∧
    ak89xx_rate_store st 0 5 count = some ((count : Int), { st with delay := 200 }) ∧
    ak89xx_rate_store st 0 500 count = some ((count : Int), { st with delay := 10 }) := by
  refine ⟨?_, ?_, ?_⟩
  · rw [rate_store_eq st data count h]
    congr 3
    unfold spec_clamp
    omega
  · rw [rate_store_eq st 5 count (by decide)]
    rfl
  · rw [rate_store_eq st 500 count (by decide)]
    rfl

/-- Witness for C5: 25 Hz stores 40 ms. -/
theorem rate_store_truncating_clamp_witness :
    1 ≤ 25 ∧
    (ak89xx_rate_store (probe_state ID_AK8963) 0 25 3).map (fun r => r.2.delay) = some 40 ∧
    (ak89xx_rate_store (probe_state ID_AK8963) 0 25 3 =
      some (((3 : Nat) : Int),
        { probe_state ID_AK8963 with delay := spec_clamp ((1000 / 25 : Nat) : Int) }) ∧
     ak89xx_rate_store (probe_state ID_AK8963) 0 5 3
       = some (((3 : Nat) : Int), { probe_state ID_AK8963 with delay := 200 }) ∧
     ak89xx_rate_store (probe_state ID_AK8963) 0 500 3
       = some (((3 : Nat) : Int), { probe_state ID_AK8963 with delay := 10 })) :=
  ⟨by decide, by decide, rate_store_truncating_clamp (probe_state ID_AK8963) 25 3 (by decide)⟩

/-- C6. Take any bound driver, any run of steps, then a disable request, then
any steps none of which is an enable request. In the state reached the flag is
0 and no work is queued; the timer callback changes nothing, so a timer firing
queues no work and touches neither bus, sink nor stored sample; the worker body
returns the state as it found it (no bus request, no output event, no re-arming
of the timer, stored sample unchanged), and a worker step is a no-op. -/
theorem disabled_is_quiescent (compass_id : Nat) (x : InitXfer) (s0 s1 : State)
    (pre post : List Action) (res : Int)
    (hprobe : ak89xx_mod_probe compass_id x = Except.ok s0)
    (hrun : run s0 (pre ++ Action.set_enable 0 res :: post) = some s1)
    (hpost : ∀ a ∈ post, a.is_enable = false) :
    s1.enable = 0 ∧ s1.work_pending = false ∧
    ak89xx_timer_func s1 = s1 ∧
    (∀ s2, step s1 Action.timer_fire = some s2 →
      s2.work_pending = false ∧ s2.bus = s1.bus ∧ s2.sink = s1.sink ∧ s2.value = s1.value) ∧
    (∀ env, ak89xx_work_func s1 env = s1) ∧
    (∀ env, step s1 (Action.work_run env) = some s1) := by
  rw [run_append] at hrun
  simp only [Option.bind_eq_some] at hrun
  obtain ⟨sa, hpre, hrest⟩ := hrun
  simp only [run, step, Option.some_bind] at hrest
  have hinv := run_inv pre s0 sa (probe_inv compass_id x s0 hprobe) hpre
  have hz := set_enable_zero sa res hinv
  obtain ⟨h0, hw⟩ := run_stays_disabled post _ s1 hz.1 hz.2 hpost hrest
  have htimer : ak89xx_timer_func s1 = s1 := by
    unfold ak89xx_timer_func
    rw [if_neg (by simpa using h0)]
  have hwork : ∀ env, ak89xx_work_func s1 env = s1 := by
    intro env
    unfold ak89xx_work_func
    rw [if_pos h0]
  refine ⟨h0, hw, htimer, ?_, hwork, ?_⟩
  · intro s2 hs2
    simp only [step] at hs2
    cases ht : s1.timer with
    | none =>
      rw [ht] at hs2
      simp only [Option.some.injEq] at hs2
      subst hs2
      exact ⟨hw, rfl, rfl, rfl⟩
    | some ns =>
      rw [ht] at hs2
      simp only [Option.some.injEq] at hs2
      subst hs2
      unfold ak89xx_timer_func
      rw [if_neg (by simpa using h0)]
      exact ⟨hw, rfl, rfl, rfl⟩
  · intro env
    simp only [step, hw, Bool.false_eq_true, if_false]

/-- Witness for C6: bring-up, enable, one sampled cycle, disable, then a timer
firing, a worker run and a rate write. -/
theorem disabled_is_quiescent_witness :
    (ak89xx_mod_probe ID_AK8963 ex_init = Except.ok ex_probed ∧
     run ex_probed (ex_pre ++ Action.set_enable 0 0 :: ex_post) = some ex_final ∧
     ∀ a ∈ ex_post, a.is_enable = false) ∧
    (ex_final.enable = 0 ∧ ex_final.work_pending = false ∧
     ak89xx_timer_func ex_final = ex_final ∧
     (∀ s2, step ex_final Action.timer_fire = some s2 →
       s2.work_pending = false ∧ s2.bus = ex_final.bus ∧ s2.sink = ex_final.sink ∧
       s2.value = ex_final.value) ∧
     (∀ env, ak89xx_work_func ex_final env = ex_final) ∧
     (∀ env, step ex_final (Action.work_run env) = some ex_final)) :=
  ⟨⟨rfl, by decide, by decide⟩,
   disabled_is_quiescent ID_AK8963 ex_init ex_probed ex_final ex_pre ex_post 0
     rfl (by decide) (by decide)⟩

/-- C7. An enable request in the Enabled state (`enable == 1`) and a disable
request in the Disabled state (`enable == 0`) return the state as it was: no
bus write is recorded, the timer and the work item are as before, and `enable`,
`delay`, the scale, the calibration bytes and the stored sample are unchanged;
the outcome does not depend on what the bus would have answered. -/
theorem set_enable_idempotent (st : State) (enable res : Int)
    (h : (enable ≠ 0 ∧ st.enable = 1) ∨ (enable = 0 ∧ st.enable = 0)) :
    ak89xx_set_enable st enable res = st ∧
    (ak89xx_set_enable st enable res).bus = st.bus ∧
    (ak89xx_set_enable st enable res).timer = st.timer ∧
    (ak89xx_set_enable st enable res).work_pending = st.work_pending := by
  have heq : ak89xx_set_enable st enable res = st := by
    rw [set_enable_eq]
    rcases h with ⟨he, hs⟩ | ⟨he, hs⟩
    · rw [if_pos he, if_neg (by rw [hs]; decide)]
    · rw [if_neg (by simpa using he), if_neg (by rw [hs]; decide)]
  rw [heq]
  exact ⟨rfl, rfl, rfl, rfl⟩

/-- Witness for C7: an enable request on the enabled example state. -/
theorem set_enable_idempotent_witness :
    (((1 : Int) ≠ 0 ∧ ex_enabled.enable = 1) ∨ ((1 : Int) = 0 ∧ ex_enabled.enable = 0)) ∧
    (ak89xx_set_enable ex_enabled 1 1 = ex_enabled ∧
     (ak89xx_set_enable ex_enabled 1 1).bus = ex_enabled.bus ∧
     (ak89xx_set_enable ex_enabled 1 1).timer = ex_enabled.timer ∧
     (ak89xx_set_enable ex_enabled 1 1).work_pending = ex_enabled.work_pending) :=
  ⟨Or.inl ⟨by decide, by decide⟩,
   set_enable_idempotent ex_enabled 1 1 (Or.inl ⟨by decide, by decide⟩)⟩

/-- C8. While the enable flag is set, the reset endpoint returns `-EPERM`
(`-1`) and returns the state as it was: no bus request is recorded and the
calibration bytes, `enable`, `delay`, the scale and the stored sample are
unchanged. With the flag clear it runs `ak89xx_init`; so whenever the endpoint
changes the state at all, the flag was clear. -/
theorem reset_show_rejected_while_enabled (st : State) (x : InitXfer)
    (hen : st.enable ≠ 0) :
    ak89xx_reset_show st x = (-EPERM, st) ∧ -EPERM = (-1 : Int) ∧
    (∀ st2 x2, st2.enable = 0 →
      ak89xx_reset_show st2 x2 =
        (sprintf_d_len (ak89xx_init st2 x2).1, (ak89xx_init st2 x2).2)) ∧
    (∀ st2 x2, (ak89xx_reset_show st2 x2).2 ≠ st2 → st2.enable = 0) := by
  refine ⟨?_, rfl, ?_, ?_⟩
  · unfold ak89xx_reset_show
    simp only [if_pos hen]
  · intro st2 x2 h0
    unfold ak89xx_reset_show
    simp only [h0, ne_eq, not_true_eq_false, if_false]
  · intro st2 x2 hne
    by_contra h0
    apply hne
    unfold ak89xx_reset_show
    simp only [if_pos h0]

/-- Witness for C8: a reset request on the enabled example state. -/
theorem reset_show_rejected_while_enabled_witness :
    ex_enabled.enable ≠ 0 ∧
    (ak89xx_reset_show ex_enabled ex_init = (-EPERM, ex_enabled) ∧ -EPERM = (-1 : Int) ∧
     (∀ st2 x2, st2.enable = 0 →
       ak89xx_reset_show st2 x2 =
         (sprintf_d_len (ak89xx_init st2 x2).1, (ak89xx_init st2 x2).2)) ∧
     (∀ st2 x2, (ak89xx_reset_show st2 x2).2 ≠ st2 → st2.enable = 0)) :=
  ⟨by decide, reset_show_rejected_while_enabled ex_enabled ex_init (by decide)⟩

/-- C9, as stated, fails: 500 Hz (period 2 ms, below the range) written over a
period of 100 ms is not rejected, the write returns its length 4 and the period
becomes 10; a scale value of 2 written to an AK8963 is not rejected either, the
write returns its length 2 and the scale becomes 1. -/
theorem out_of_range_writes_accepted :
    1000 / 500 < AK89XX_MIN_DELAY ∧ ex_probed.delay = 100 ∧
    ak89xx_rate_store ex_probed 0 500 4 = some (4, { ex_probed with delay := 10 }) ∧
    ex_probed.compass_id = ID_AK8963 ∧ ex_probed.compass_scale = 0 ∧
    ak89xx_scale_store ex_probed 0 2 2 = (2, { ex_probed with compass_scale := 1 }) ∧
    ¬ (∃ e st1, e < 0 ∧ ak89xx_rate_store ex_probed 0 500 4 = some (e, st1) ∧
        st1.delay = ex_probed.delay) ∧
    ¬ (∃ e st1, e < 0 ∧ ak89xx_scale_store ex_probed 0 2 2 = (e, st1) ∧
        st1.compass_scale = ex_probed.compass_scale) := by
  have h1 : ak89xx_rate_store ex_probed 0 500 4 = some (4, { ex_probed with delay := 10 }) := by
    decide
  have h2 : ak89xx_scale_store ex_probed 0 2 2 = (2, { ex_probed with compass_scale := 1 }) := by
    decide
  refine ⟨by decide, by decide, h1, by decide, by decide, h2, ?_, ?_⟩
  · rintro ⟨e, st1, he, heq, -⟩
    rw [h1] at heq
    simp only [Option.some.injEq, Prod.mk.injEq] at heq
    omega
  · rintro ⟨e, st1, he, heq, -⟩
    rw [h2] at heq
    simp only [Prod.mk.injEq] at heq
    omega

/-- C9, amended. A write whose text `strict_strtoul` does not parse (non-zero
`error`) is rejected with that error by the rate and by the scale endpoint, the
state unchanged. A parsed rate of at least 1 Hz whose period `1000 / rate_hz`
falls outside `[10, 200]` is accepted and stored as the nearer bound, and a
parsed scale value other than 0 or 1 is accepted and stored as 1 on an AK8963
(the scale is left alone on the other variants). -/
theorem store_rejects_unparsed_only (st : State) (error : Int) (data count : Nat)
    (herr : error ≠ 0) :
    (ak89xx_rate_store st error data count = some (error, st) ∧
     ak89xx_scale_store st error data count = (error, st)) ∧
    (∀ d, 1 ≤ d → 1000 / d < 10 →
      ak89xx_rate_store st 0 d count = some ((count : Int), { st with delay := 10 })) ∧
    (∀ d, 1 ≤ d → 200 < 1000 / d →
      ak89xx_rate_store st 0 d count = some ((count : Int), { st with delay := 200 })) ∧
    (∀ d, 2 ≤ d →
      ak89xx_scale_store st 0 d count =
        ((count : Int),
         if st.compass_id = ID_AK8963 then { st with compass_scale := 1 } else st)) := by
  refine ⟨⟨?_, ?_⟩, ?_, ?_, ?_⟩
  · unfold ak89xx_rate_store
    rw [if_pos herr]
  · unfold ak89xx_scale_store
    rw [if_pos herr]
  · intro d hd hlt
    rw [rate_store_eq st d count hd]
    have : max 10 (min 200 (1000 / d)) = 10 := by omega
    rw [this]
    rfl
  · intro d hd hgt
    rw [rate_store_eq st d count hd]
    have : max 10 (min 200 (1000 / d)) = 200 := by omega
    rw [this]
    rfl
  · intro d hd
    have hd0 : d ≠ 0 := by omega
    unfold ak89xx_scale_store
    simp only [ne_eq, not_true_eq_false, if_false, hd0, not_false_eq_true, if_true]

/-- Witness for C9 (amended): a write that fails to parse with `-EINVAL`. -/
theorem store_rejects_unparsed_only_witness :
    (-22 : Int) ≠ 0 ∧
    ((ak89xx_rate_store ex_probed (-22) 0 3 = some (-22, ex_probed) ∧
      ak89xx_scale_store ex_probed (-22) 0 3 = (-22, ex_probed)) ∧
     (∀ d, 1 ≤ d → 1000 / d < 10 →
       ak89xx_rate_store ex_probed 0 d 3
         = some (((3 : Nat) : Int), { ex_probed with delay := 10 })) ∧
     (∀ d, 1 ≤ d → 200 < 1000 / d →
       ak89xx_rate_store ex_probed 0 d 3
         = some (((3 : Nat) : Int), { ex_probed with delay := 200 })) ∧
     (∀ d, 2 ≤ d →
       ak89xx_scale_store ex_probed 0 d 3 =
         (((3 : Nat) : Int),
          if ex_probed.compass_id = ID_AK8963 then { ex_probed with compass_scale := 1 }
          else ex_probed))) :=
  ⟨by decide, store_rejects_unparsed_only ex_probed (-22) 0 3 (by decide)⟩

/-- C10. A worker run while enabled whose burst read fails (no adapter
handle, or `i2c_transfer` moved fewer than the two messages) completes: the
stored axes are what they were, exactly one output event is appended to the
sink, carrying those axes and the two halves of the clock reading taken in this
run, the timer is armed for the current period (`delay` ms in ns), and
`enable`, `delay`, the scale and the calibration bytes are untouched. -/
theorem work_func_transport_error (st : State) (env : WorkEnv)
    (hen : st.enable ≠ 0) (hfail : st.sl_handle = false ∨ env.rd.res < 2)
    (hd : 10 ≤ st.delay ∧ st.delay ≤ 200) (hts : 0 ≤ env.now ∧ env.now < 2 ^ 63) :
    (ak89xx_work_func st env).value = st.value ∧
    (∃ hi lo, (ak89xx_work_func st env).sink = st.sink ++ output_event st.value hi lo ∧
      toU32 hi * 2 ^ 32 + toU32 lo = env.now) ∧
    (ak89xx_work_func st env).timer = some (st.delay * 1000000) ∧
    (ak89xx_work_func st env).enable = st.enable ∧
    (ak89xx_work_func st env).delay = st.delay ∧
    (ak89xx_work_func st env).compass_scale = st.compass_scale ∧
    (ak89xx_work_func st env).asa = st.asa := by
  rw [work_func_read_fail st env hen hfail]
  refine ⟨rfl, ⟨_, _, rfl, timestamp_halves env.now hts.1 hts.2⟩, ?_, rfl, rfl, rfl, rfl⟩
  show some (toS32 (st.delay * 1000000)) = some (st.delay * 1000000)
  rw [toS32_of_range _ (by omega) (by omega)]

/-- Witness for C10: the adapter reports `-5` for the burst read. -/
theorem work_func_transport_error_witness :
    (ex_enabled.enable ≠ 0 ∧ (ex_enabled.sl_handle = false ∨ (-5 : Int) < 2)) ∧
    (ak89xx_work_func ex_enabled ⟨5000000000, ⟨-5, []⟩, 1⟩).sink
      = output_event ⟨1, 2, 3⟩ 1 705032704 ∧
    ((ak89xx_work_func ex_enabled ⟨5000000000, ⟨-5, []⟩, 1⟩).value = ex_enabled.value ∧
     (∃ hi lo, (ak89xx_work_func ex_enabled ⟨5000000000, ⟨-5, []⟩, 1⟩).sink
        = ex_enabled.sink ++ output_event ex_enabled.value hi lo ∧
        toU32 hi * 2 ^ 32 + toU32 lo = 5000000000) ∧
     (ak89xx_work_func ex_enabled ⟨5000000000, ⟨-5, []⟩, 1⟩).timer
        = some (ex_enabled.delay * 1000000) ∧
     (ak89xx_work_func ex_enabled ⟨5000000000, ⟨-5, []⟩, 1⟩).enable = ex_enabled.enable ∧
     (ak89xx_work_func ex_enabled ⟨5000000000, ⟨-5, []⟩, 1⟩).delay = ex_enabled.delay ∧
     (ak89xx_work_func ex_enabled ⟨5000000000, ⟨-5, []⟩, 1⟩).compass_scale
        = ex_enabled.compass_scale ∧
     (ak89xx_work_func ex_enabled ⟨5000000000, ⟨-5, []⟩, 1⟩).asa = ex_enabled.asa) :=
  ⟨⟨by decide, Or.inr (by decide)⟩, by decide,
   work_func_transport_error ex_enabled ⟨5000000000, ⟨-5, []⟩, 1⟩
     (by decide) (Or.inr (by decide)) (by decide) (by decide)⟩

/-- C11. A disable request in the Enabled state (`enable == 1`) of a bound
driver (adapter handle set) ends with `enable == 0`, the period back at the
default 100 ms and no work queued, and records exactly one bus request: the
write of the power-down byte `(scale << 4) | 0x00` to the control register,
where `scale` is 0 unless the variant is the AK8963 (then it is the stored
scale: byte `0x00` for scale 0, `0x10` for scale 1). That request is recorded
with the enable flag reading 0: it is issued after the flag was cleared. The
final state is the same whatever `i2c_transfer` answers. -/
theorem set_enable_zero_powers_down (st : State) (res : Int)
    (hen : st.enable = 1) (hh : st.sl_handle = true) :
    ak89xx_set_enable st 0 res =
      { st with
        enable := 0
        work_pending := false
        delay := 100
        bus := st.bus ++
          [BusOp.write AK89XX_REG_CNTL (cntl_byte (scale_of st) AK89XX_CNTL_MODE_POWER_DOWN)]
        bus_enable := st.bus_enable ++ [0] } ∧
    (ak89xx_set_enable st 0 res).bus_enable = st.bus_enable ++ [0] ∧
    AK89XX_REG_CNTL = 0x0A ∧
    (st.compass_id ≠ ID_AK8963 →
      cntl_byte (scale_of st) AK89XX_CNTL_MODE_POWER_DOWN = 0x00) ∧
    (st.compass_id = ID_AK8963 → st.compass_scale = 0 →
      cntl_byte (scale_of st) AK89XX_CNTL_MODE_POWER_DOWN = 0x00) ∧
    (st.compass_id = ID_AK8963 → st.compass_scale = 1 →
      cntl_byte (scale_of st) AK89XX_CNTL_MODE_POWER_DOWN = 0x10) ∧
    (∀ res2, ak89xx_set_enable st 0 res2 = ak89xx_set_enable st 0 res) := by
  have hform : ∀ r : Int, ak89xx_set_enable st 0 r =
      { st with
        enable := 0
        work_pending := false
        delay := 100
        bus := st.bus ++
          [BusOp.write AK89XX_REG_CNTL (cntl_byte (scale_of st) AK89XX_CNTL_MODE_POWER_DOWN)]
        bus_enable := st.bus_enable ++ [0] } := by
    intro r
    rw [set_enable_eq, if_neg (by simp), if_pos hen]
    unfold inv_serial_single_write
    simp only [hh, Bool.true_eq_false, if_false]
    split_ifs <;> rfl
  refine ⟨hform res, ?_, rfl, ?_, ?_, ?_, ?_⟩
  · rw [hform res]
  · intro hid
    unfold scale_of
    rw [if_neg hid]
    decide
  · intro hid hs
    unfold scale_of
    rw [if_pos hid, hs]
    decide
  · intro hid hs
    unfold scale_of
    rw [if_pos hid, hs]
    decide
  · intro res2
    rw [hform res2, hform res]

/-- Witness for C11: an enabled AK8963 with scale 1 is disabled while the bus
does not acknowledge the write. -/
theorem set_enable_zero_powers_down_witness :
    ({ ex_probed with enable := 1, compass_scale := 1, delay := 20 } : State).enable = 1 ∧
    ({ ex_probed with enable := 1, compass_scale := 1, delay := 20 } : State).sl_handle = true ∧
    ak89xx_set_enable { ex_probed with enable := 1, compass_scale := 1, delay := 20 } 0 0 =
      { ex_probed with
        compass_scale := 1
        bus := ex_probed.bus ++ [BusOp.write 0x0A 0x10]
        bus_enable := ex_probed.bus_enable ++ [0] } ∧
    (ak89xx_set_enable { ex_probed with enable := 1, compass_scale := 1, delay := 20 } 0 0 =
      { ({ ex_probed with enable := 1, compass_scale := 1, delay := 20 } : State) with
        enable := 0
        work_pending := false
        delay := 100
        bus := ({ ex_probed with enable := 1, compass_scale := 1, delay := 20 } : State).bus ++
          [BusOp.write AK89XX_REG_CNTL
            (cntl_byte (scale_of { ex_probed with enable := 1, compass_scale := 1, delay := 20 })
              AK89XX_CNTL_MODE_POWER_DOWN)]
        bus_enable :=
          ({ ex_probed with enable := 1, compass_scale := 1, delay := 20 } : State).bus_enable
            ++ [0] }) :=
  ⟨by decide, by decide, by decide,
   (set_enable_zero_powers_down
     { ex_probed with enable := 1, compass_scale := 1, delay := 20 } 0
     (by decide) (by decide)).1⟩

/-- C12. For a successful burst read of 8 bytes `b`, `ak89xx_read` returns as
axis `i` the two's-complement signed 16-bit reading of `b[2i+1] + 256 * b[2i+2]`
(low byte first), so the three axes re-encoded as little-endian 16-bit words
are the bytes `b[1..6]`. The value returned is the error of the trigger write
if that fails, and otherwise the status computed from bit 1 of `b[0]` (overrun)
and bits 2 and 3 of `b[7]` (data error, overflow); bit 0 of `b[0]` (ready) is
tested and changes nothing. Replacing `b[0]` and `b[7]` by any other bytes
leaves the decoded axes as they are. -/
theorem read_decodes_little_endian (st : State) (c : Vec3) (rd : I2cRead) (wr : Int)
    (hh : st.sl_handle = true) (hrd : 2 ≤ rd.res)
    (hlen : rd.data.length = 8) (hbytes : ∀ b ∈ rd.data, b < 256) :
    (ak89xx_read st c rd wr).2.1 =
      ⟨s16_of_u16 (rd.data.getD 1 0 + 256 * rd.data.getD 2 0),
       s16_of_u16 (rd.data.getD 3 0 + 256 * rd.data.getD 4 0),
       s16_of_u16 (rd.data.getD 5 0 + 256 * rd.data.getD 6 0)⟩ ∧
    le16_bytes (ak89xx_read st c rd wr).2.1.x ++ le16_bytes (ak89xx_read st c rd wr).2.1.y ++
      le16_bytes (ak89xx_read st c rd wr).2.1.z = (rd.data.drop 1).take 6 ∧
    (ak89xx_read st c rd wr).1 =
      (if wr < 1 then (if wr = 0 then - EIO else wr)
       else if (rd.data.getD 0 0).testBit 1 = true then 0
       else if (rd.data.getD 7 0).testBit 3 = true then 8
       else if (rd.data.getD 7 0).testBit 2 = true then 4
       else 0) ∧
    (∀ s1 s2 : Nat,
      (ak89xx_read st c ⟨rd.res, (rd.data.set 0 s1).set 7 s2⟩ wr).2.1
        = (ak89xx_read st c rd wr).2.1) := by
  have hb := getD_lt_256 rd.data hbytes
  have a0 : raw_axis rd.data 0 = s16_of_u16 (rd.data.getD 1 0 + 256 * rd.data.getD 2 0) ∧
      le16_bytes (raw_axis rd.data 0) = [rd.data.getD 1 0, rd.data.getD 2 0] :=
    raw_axis_eq rd.data 0 (hb _) (hb _)
  have a1 : raw_axis rd.data 1 = s16_of_u16 (rd.data.getD 3 0 + 256 * rd.data.getD 4 0) ∧
      le16_bytes (raw_axis rd.data 1) = [rd.data.getD 3 0, rd.data.getD 4 0] :=
    raw_axis_eq rd.data 1 (hb _) (hb _)
  have a2 : raw_axis rd.data 2 = s16_of_u16 (rd.data.getD 5 0 + 256 * rd.data.getD 6 0) ∧
      le16_bytes (raw_axis rd.data 2) = [rd.data.getD 5 0, rd.data.getD 6 0] :=
    raw_axis_eq rd.data 2 (hb _) (hb _)
  have hread := ak89xx_read_ok st c rd wr hh hrd
  refine ⟨?_, ?_, ?_, ?_⟩
  · rw [hread]
    simp only [a0.1, a1.1, a2.1]
  · rw [hread]
    simp only [a0.2, a1.2, a2.2]
    obtain ⟨b0, b1, b2, b3, b4, b5, b6, b7, hdata⟩ := list_of_length_eight rd.data hlen
    rw [hdata]
    rfl
  · rw [hread]
    simp only [byteAt, Nat.mod_eq_of_lt (hb 0), Nat.mod_eq_of_lt (hb 7), read_status_eq]
  · intro s1 s2
    rw [hread, ak89xx_read_ok st c ⟨rd.res, (rd.data.set 0 s1).set 7 s2⟩ wr hh hrd]
    obtain ⟨b0, b1, b2, b3, b4, b5, b6, b7, hdata⟩ := list_of_length_eight rd.data hlen
    simp only [hdata]
    rfl

/-- Witness for C12: the burst with raw axes `(100, -200, 300)`, ready bit and
overflow bit set. -/
theorem read_decodes_little_endian_witness :
    (ex_enabled.sl_handle = true ∧ (2 : Int) ≤ 2 ∧ (ex_burst 0x01 0x08).length = 8 ∧
      ∀ b ∈ ex_burst 0x01 0x08, b < 256) ∧
    (ak89xx_read ex_enabled ⟨0, 0, 0⟩ ⟨2, ex_burst 0x01 0x08⟩ 1).1 = 8 ∧
    (ak89xx_read ex_enabled ⟨0, 0, 0⟩ ⟨2, ex_burst 0x01 0x08⟩ 1).2.1 = ⟨100, -200, 300⟩ ∧
    (ak89xx_read ex_enabled ⟨0, 0, 0⟩ ⟨2, ex_burst 0x01 0x08⟩ 1).2.1 =
      ⟨s16_of_u16 ((ex_burst 0x01 0x08).getD 1 0 + 256 * (ex_burst 0x01 0x08).getD 2 0),
       s16_of_u16 ((ex_burst 0x01 0x08).getD 3 0 + 256 * (ex_burst 0x01 0x08).getD 4 0),
       s16_of_u16 ((ex_burst 0x01 0x08).getD 5 0 + 256 * (ex_burst 0x01 0x08).getD 6 0)⟩ :=
  ⟨⟨by decide, by decide, by decide, by decide⟩, by decide, by decide,
   (read_decodes_little_endian ex_enabled ⟨0, 0, 0⟩ ⟨2, ex_burst 0x01 0x08⟩ 1
     (by decide) (by decide) (by decide) (by decide)).1⟩

/-- C13. In every state a bound driver reaches by steps with defined behaviour
(every step but a parsed rate write of 0 Hz), the period lies in `[10, 200]`:
it is 100 after bring-up; every step (rate write, scale write, enable, disable,
timer firing, worker run, reset) from a state with the period in range ends
with the period in range; so the rate read endpoint does not divide by zero
and prints `1000 / period_ms`, a value in `[5, 100]`. -/
theorem period_in_range_reachable (compass_id : Nat) (x : InitXfer) (s0 s : State)
    (acts : List Action)
    (hprobe : ak89xx_mod_probe compass_id x = Except.ok s0)
    (hrun : run s0 acts = some s) :
    s0.delay = 100 ∧
    (10 ≤ s.delay ∧ s.delay ≤ 200) ∧
    (∀ (st st2 : State) (a : Action), 10 ≤ st.delay ∧ st.delay ≤ 200 →
      step st a = some st2 → 10 ≤ st2.delay ∧ st2.delay ≤ 200) ∧
    (∀ (st : State) (a : Action),
      step st a = none ↔ ∃ count, a = Action.rate_store 0 0 count) ∧
    (∃ hz : Int, 5 ≤ hz ∧ hz ≤ 100 ∧ hz = 1000 / s.delay ∧
      ak89xx_rate_show s = some (sprintf_d hz, sprintf_d_len hz)) := by
  have h0 := probe_handle_delay compass_id x s0 hprobe
  have hr := run_handle_delay acts s0 s h0.1 (by rw [h0.2]; decide) hrun
  have hs := rate_show_in_range s hr.2
  exact ⟨h0.2, hr.2,
    fun st st2 a hd hstep => (step_handle_delay st st2 a hstep).2 hd,
    step_none_iff,
    ⟨1000 / s.delay, hs.1, hs.2.1, rfl, hs.2.2⟩⟩

/-- Witness for C13: the session of the C6 witness ends with a period of 20 ms,
and the rate read endpoint prints 50. -/
theorem period_in_range_reachable_witness :
    (ak89xx_mod_probe ID_AK8963 ex_init = Except.ok ex_probed ∧
     run ex_probed (ex_pre ++ Action.set_enable 0 0 :: ex_post) = some ex_final) ∧
    ex_final.delay = 20 ∧
    ak89xx_rate_show ex_final = some (sprintf_d 50, 3) ∧
    (ex_probed.delay = 100 ∧
     (10 ≤ ex_final.delay ∧ ex_final.delay ≤ 200) ∧
     (∀ (st st2 : State) (a : Action), 10 ≤ st.delay ∧ st.delay ≤ 200 →
       step st a = some st2 → 10 ≤ st2.delay ∧ st2.delay ≤ 200) ∧
     (∀ (st : State) (a : Action),
       step st a = none ↔ ∃ count, a = Action.rate_store 0 0 count) ∧
     (∃ hz : Int, 5 ≤ hz ∧ hz ≤ 100 ∧ hz = 1000 / ex_final.delay ∧
       ak89xx_rate_show ex_final = some (sprintf_d hz, sprintf_d_len hz))) :=
  ⟨⟨rfl, by decide⟩, by decide, by decide,
   period_in_range_reachable ID_AK8963 ex_init ex_probed ex_final
     (ex_pre ++ Action.set_enable 0 0 :: ex_post) rfl (by decide)⟩

end Ak89xx
